import Mathlib

/-!
Shallow embedding of the single-market trade simulation engine of
`PolyQuant/backtest_advanced.py` (`simulate_market` and its helpers).

Python floats are modelled as exact rationals (`ℚ`), integer share counts as
`ℕ`, timestamps as rational POSIX seconds.  The per-timestep loop body is
decomposed into the stage functions of the source (exposure bookkeeping,
entry, DCA, dynamic hedge, time-aware exit), folded over the joined price
series; the post-loop final accounting and `TradeResult` construction are
`settle` and `mkResult`.
-/

attribute [local semireducible] Rat.mul Rat.add Rat.sub Rat.inv Rat.ofScientific

namespace PolyQuant

/-- One side of a binary market. -/
inductive Side where
  | yes : Side
  | no : Side
deriving DecidableEq, Repr

/-- One row of the joined price series: POSIX timestamp (seconds) and the
Yes/No mid prices (`df.iterrows()` rows in the source). -/
structure Row where
  ts : ℚ
  yes : ℚ
  no : ℚ
deriving DecidableEq, Repr

/-- Strategy parameters of the `Config` dataclass that the simulation engine
consumes, with the source's default values. -/
structure Config where
  entry_threshold : ℚ := 7/20
  dca_levels : List ℚ := [1/4, 3/20, 1/20]
  dca_time_cutoff_minutes : ℚ := 5
  profit_buffer : ℚ := 1/100
  size_per_leg : ℕ := 100
  force_unwind_minutes : ℚ := 5
  slippage_bps : ℚ := 10
  fee_bps : ℚ := 0
deriving DecidableEq, Repr

/-- Mutable simulation state of the per-market loop (the local variables of
`simulate_market`). -/
structure SimState where
  shares_yes : ℕ
  shares_no : ℕ
  cost_yes : ℚ
  cost_no : ℚ
  entry_side : Option Side
  entry_time : Option ℚ
  entered : Bool
  unwinded : Bool
  forced : Bool
  hedged : Bool
  dca_count : ℕ
  max_gross_exposure : ℚ
  dca_used_yes : List ℚ
  dca_used_no : List ℚ
deriving DecidableEq, Repr

/-- Terminal output record (the engine-relevant fields of `TradeResult`). -/
structure TradeResult where
  entered : Bool
  unwinded : Bool
  forced : Bool
  entry_side : Option Side
  shares_yes : ℕ
  shares_no : ℕ
  avg_cost_yes : ℚ
  avg_cost_no : ℚ
  total_cost : ℚ
  locked_payout : ℚ
  pnl : ℚ
  max_gross_exposure : ℚ
  hedged : Bool
  dca_count : ℕ
deriving DecidableEq, Repr

/-- The `buy` execution helper: mid worsened by slippage, clamped into
`[0.0001, 0.9999]`. -/
def fillPrice (cfg : Config) (mid : ℚ) : ℚ :=
  min (max (mid * (1 + cfg.slippage_bps / 10000)) (1/10000)) (9999/10000)

/-- `fee_mult = cfg.fee_bps / 10000`. -/
def feeMult (cfg : Config) : ℚ := cfg.fee_bps / 10000

/-- Return value of `calc_profit_if_unwind`. -/
structure UnwindQuote where
  pnl : ℚ
  total_cost : ℚ
  add_yes : ℕ
  add_no : ℕ
deriving DecidableEq, Repr

/-- `calc_profit_if_unwind`: hypothetical result of equalizing the two legs
at the current prices.  The identical formula also appears textually in the
source's final-accounting block (computing `potential_pnl` at the last row). -/
def calcProfitIfUnwind (cfg : Config) (s : SimState) (r : Row) : UnwindQuote :=
  let target := max s.shares_yes s.shares_no
  let add_yes := target - s.shares_yes
  let add_no := target - s.shares_no
  let add_cost_yes := (add_yes : ℚ) * fillPrice cfg r.yes
  let add_cost_no := (add_no : ℚ) * fillPrice cfg r.no
  let total_cost := s.cost_yes + s.cost_no + add_cost_yes + add_cost_no
  let locked_payout := (target : ℚ)
  let fees := total_cost * feeMult cfg
  { pnl := locked_payout - total_cost - fees
    total_cost := total_cost
    add_yes := add_yes
    add_no := add_no }

/-- Initial state of the loop variables. -/
def initState : SimState where
  shares_yes := 0
  shares_no := 0
  cost_yes := 0
  cost_no := 0
  entry_side := none
  entry_time := none
  entered := false
  unwinded := false
  forced := false
  hedged := false
  dca_count := 0
  max_gross_exposure := 0
  dca_used_yes := []
  dca_used_no := []

/-- Mark-to-market gross notional `yes_p*shares_yes + no_p*shares_no`. -/
def grossOf (s : SimState) (r : Row) : ℚ :=
  r.yes * (s.shares_yes : ℚ) + r.no * (s.shares_no : ℚ)

/-- High-water-mark update performed at the top of every loop iteration,
before any trade of that iteration. -/
def recordExposure (s : SimState) (r : Row) : SimState :=
  { s with max_gross_exposure := max s.max_gross_exposure (grossOf s r) }

/-- `minutes_left = (market_end - ts)/60`. -/
def minutesLeft (marketEnd : ℚ) (r : Row) : ℚ := (marketEnd - r.ts) / 60

/-- `minutes_since_entry` (0 while `entry_time is None`). -/
def minutesSinceEntry (s : SimState) (r : Row) : ℚ :=
  match s.entry_time with
  | none => 0
  | some et => (r.ts - et) / 60

/-- Entry stage: buy `size_per_leg` of the cheaper side once either mid is at
or below the threshold; the source then does `continue` so nothing else runs
at the entry timestep. -/
def tryEnter (cfg : Config) (s : SimState) (r : Row) : SimState :=
  if r.yes ≤ cfg.entry_threshold ∨ r.no ≤ cfg.entry_threshold then
    if r.yes ≤ r.no then
      { s with entered := true
               entry_time := some r.ts
               entry_side := some Side.yes
               shares_yes := s.shares_yes + cfg.size_per_leg
               cost_yes := s.cost_yes + (cfg.size_per_leg : ℚ) * fillPrice cfg r.yes }
    else
      { s with entered := true
               entry_time := some r.ts
               entry_side := some Side.no
               shares_no := s.shares_no + cfg.size_per_leg
               cost_no := s.cost_no + (cfg.size_per_leg : ℚ) * fillPrice cfg r.no }
  else s

/-- One DCA level check on the Yes side (the body of the `for lvl` loop). -/
def dcaFillYes (cfg : Config) (yp : ℚ) (s : SimState) (lvl : ℚ) : SimState :=
  if yp ≤ lvl ∧ lvl ∉ s.dca_used_yes then
    { s with dca_used_yes := lvl :: s.dca_used_yes
             shares_yes := s.shares_yes + cfg.size_per_leg
             cost_yes := s.cost_yes + (cfg.size_per_leg : ℚ) * fillPrice cfg yp
             dca_count := s.dca_count + 1 }
  else s

/-- One DCA level check on the No side. -/
def dcaFillNo (cfg : Config) (np : ℚ) (s : SimState) (lvl : ℚ) : SimState :=
  if np ≤ lvl ∧ lvl ∉ s.dca_used_no then
    { s with dca_used_no := lvl :: s.dca_used_no
             shares_no := s.shares_no + cfg.size_per_leg
             cost_no := s.cost_no + (cfg.size_per_leg : ℚ) * fillPrice cfg np
             dca_count := s.dca_count + 1 }
  else s

/-- DCA stage: only within `dca_time_cutoff_minutes` of entry, only on the
entry side, iterating over the configured levels in order. -/
def dcaStep (cfg : Config) (s : SimState) (r : Row) (mse : ℚ) : SimState :=
  if mse ≤ cfg.dca_time_cutoff_minutes then
    match s.entry_side with
    | some Side.yes => cfg.dca_levels.foldl (dcaFillYes cfg r.yes) s
    | some Side.no => cfg.dca_levels.foldl (dcaFillNo cfg r.no) s
    | none => s
  else s

/-- `avg_yes_cost = (cost_yes / shares_yes) if shares_yes > 0 else 0`. -/
def avgCostYes (s : SimState) : ℚ :=
  if 0 < s.shares_yes then s.cost_yes / (s.shares_yes : ℚ) else 0

/-- `avg_no_cost = (cost_no / shares_no) if shares_no > 0 else 0`. -/
def avgCostNo (s : SimState) : ℚ :=
  if 0 < s.shares_no then s.cost_no / (s.shares_no : ℚ) else 0

/-- Dynamic hedging stage: if not yet hedged and the opposite leg is empty,
buy the opposite leg in the entry leg's size when the blended cost
`avg_cost + fill_price(opposite)` is strictly below 1. -/
def hedgeStep (cfg : Config) (s : SimState) (r : Row) : SimState :=
  if s.hedged then s
  else if s.entry_side = some Side.yes ∧ s.shares_no = 0 then
    if avgCostYes s + fillPrice cfg r.no < 1 then
      { s with shares_no := s.shares_no + s.shares_yes
               cost_no := s.cost_no + (s.shares_yes : ℚ) * fillPrice cfg r.no
               hedged := true }
    else s
  else if s.entry_side = some Side.no ∧ s.shares_yes = 0 then
    if avgCostNo s + fillPrice cfg r.yes < 1 then
      { s with shares_yes := s.shares_yes + s.shares_no
               cost_yes := s.cost_yes + (s.shares_no : ℚ) * fillPrice cfg r.yes
               hedged := true }
    else s
  else s

/-- Execute the shortfall buys of an unwind and mark `unwinded = true`. -/
def execUnwind (cfg : Config) (s : SimState) (r : Row) (add_yes add_no : ℕ) : SimState :=
  let s1 :=
    if 0 < add_yes then
      { s with cost_yes := s.cost_yes + (add_yes : ℚ) * fillPrice cfg r.yes
               shares_yes := s.shares_yes + add_yes }
    else s
  let s2 :=
    if 0 < add_no then
      { s1 with cost_no := s1.cost_no + (add_no : ℚ) * fillPrice cfg r.no
                shares_no := s1.shares_no + add_no }
    else s1
  { s2 with unwinded := true }

/-- Time-aware exit stage: with more than `force_unwind_minutes` left, unwind
only for `pnl ≥ profit_buffer` (leaving `forced` untouched); at or below the
threshold, unwind for any `pnl ≥ 0` setting `forced`, and do nothing when the
hypothetical pnl is negative. -/
def exitStep (cfg : Config) (s : SimState) (r : Row) (ml : ℚ) : SimState :=
  let q := calcProfitIfUnwind cfg s r
  if cfg.force_unwind_minutes < ml then
    if cfg.profit_buffer ≤ q.pnl then execUnwind cfg s r q.add_yes q.add_no else s
  else
    if 0 ≤ q.pnl then { execUnwind cfg s r q.add_yes q.add_no with forced := true } else s

/-- One iteration of the `for ts, row in df.iterrows()` loop; the source's
`break` after an unwind is modelled by `step` being the identity once
`unwinded` holds. -/
def step (cfg : Config) (marketEnd : ℚ) (s : SimState) (r : Row) : SimState :=
  if s.unwinded then s
  else
    let s1 := recordExposure s r
    if s1.entered then
      exitStep cfg
        (hedgeStep cfg (dcaStep cfg s1 r (minutesSinceEntry s1 r)) r) r
        (minutesLeft marketEnd r)
    else tryEnter cfg s1 r

/-- The whole loop: fold `step` over the joined series. -/
def runState (cfg : Config) (marketEnd : ℚ) (rows : List Row) : SimState :=
  rows.foldl (step cfg marketEnd) initState

/-- Final accounting block: if the series ended with shares and no unwind,
recompute the hypothetical completion at the last row; complete it only when
`potential_pnl ≥ 0`, and mark `forced` in either case. -/
def settle (cfg : Config) (rows : List Row) (s : SimState) : SimState :=
  if (0 < s.shares_yes ∨ 0 < s.shares_no) ∧ s.unwinded = false then
    match rows.getLast? with
    | none => s
    | some r =>
      let q := calcProfitIfUnwind cfg s r
      if 0 ≤ q.pnl then { execUnwind cfg s r q.add_yes q.add_no with forced := true }
      else { s with forced := true }
  else s

/-- Assemble the `TradeResult`: average costs, `total_cost`, the pessimistic
`locked_payout` (0 unless unwound), and `pnl = payout − cost − cost×fee`. -/
def mkResult (cfg : Config) (s : SimState) : TradeResult :=
  let total_cost := s.cost_yes + s.cost_no
  let locked_payout : ℚ := if s.unwinded then ((max s.shares_yes s.shares_no : ℕ) : ℚ) else 0
  { entered := s.entered
    unwinded := s.unwinded
    forced := s.forced
    entry_side := s.entry_side
    shares_yes := s.shares_yes
    shares_no := s.shares_no
    avg_cost_yes := avgCostYes s
    avg_cost_no := avgCostNo s
    total_cost := total_cost
    locked_payout := locked_payout
    pnl := locked_payout - total_cost - total_cost * feeMult cfg
    max_gross_exposure := s.max_gross_exposure
    hedged := s.hedged
    dca_count := s.dca_count }

/-- Lower-cased outcome label of the Yes leg. -/
def yesKey : List Char := ['y', 'e', 's']

/-- Lower-cased outcome label of the No leg. -/
def noKey : List Char := ['n', 'o']

/-- `"yes" in tok_map and "no" in tok_map` over the lower-cased outcome
labels of the market's tokens. -/
def legsIdentified (outs : List (List Char)) : Bool :=
  (outs.map fun o => o.map Char.toLower).contains yesKey &&
  (outs.map fun o => o.map Char.toLower).contains noKey

/-- The all-zero non-entered result returned on structural failure. -/
def zeroResult : TradeResult where
  entered := false
  unwinded := false
  forced := false
  entry_side := none
  shares_yes := 0
  shares_no := 0
  avg_cost_yes := 0
  avg_cost_no := 0
  total_cost := 0
  locked_payout := 0
  pnl := 0
  max_gross_exposure := 0
  hedged := false
  dca_count := 0

/-- `simulate_market`: bail out with the zero result when the Yes/No legs
cannot be identified or the joined series is empty; otherwise run the loop,
settle at exhaustion, and assemble the result.  The market end used for
`minutes_left` is `epoch + 15*60` seconds. -/
def simulate_market (outs : List (List Char)) (cfg : Config) (epoch : ℚ)
    (rows : List Row) : TradeResult :=
  if legsIdentified outs = false then zeroResult
  else if rows.isEmpty then zeroResult
  else mkResult cfg (settle cfg rows (runState cfg (epoch + 15 * 60) rows))

/-- The hedge stage's firing condition, evaluated on the state it receives
(after the same timestep's DCA fills): some leg is the entry leg, the
opposite leg is empty, and the blended cost is strictly below 1. -/
def gateHolds (cfg : Config) (s : SimState) (r : Row) : Prop :=
  (s.entry_side = some Side.yes ∧ s.shares_no = 0 ∧ avgCostYes s + fillPrice cfg r.no < 1)
  ∨ (s.entry_side = some Side.no ∧ s.shares_yes = 0 ∧ avgCostNo s + fillPrice cfg r.yes < 1)

instance (cfg : Config) (s : SimState) (r : Row) : Decidable (gateHolds cfg s r) := by
  unfold gateHolds
  infer_instance

/-- The state on which the hedge stage is evaluated during `step` at a given
timestep, when that stage is reached at all (`none` once unwound or before
entry). -/
def hedgeMoment (cfg : Config) (s : SimState) (r : Row) : Option SimState :=
  if s.unwinded then none
  else
    let s1 := recordExposure s r
    if s1.entered then some (dcaStep cfg s1 r (minutesSinceEntry s1 r)) else none

/-- Whether the hedge firing condition holds at any timestep of the run, at
the moment the hedge stage evaluates it. -/
def gateEverFires (cfg : Config) (marketEnd : ℚ) : SimState → List Row → Bool
  | _, [] => false
  | s, r :: rs =>
    (match hedgeMoment cfg s r with
     | some s2 => decide (gateHolds cfg s2 r)
     | none => false) || gateEverFires cfg marketEnd (step cfg marketEnd s r) rs

/-- The mark-to-market gross notional observed at each processed timestep,
with the share counts held before that timestep's trades; the trace stops
where the loop breaks. -/
def grossTrace (cfg : Config) (marketEnd : ℚ) : SimState → List Row → List ℚ
  | _, [] => []
  | s, r :: rs =>
    if s.unwinded then []
    else grossOf s r :: grossTrace cfg marketEnd (step cfg marketEnd s r) rs

/-- Execution-model relation between a state and a later state of the same
timestep: shares only grow, and every unit of new cost on a leg is exactly
the fill price of that leg's current mid. -/
def BuyRel (cfg : Config) (yp np : ℚ) (s s2 : SimState) : Prop :=
  s.shares_yes ≤ s2.shares_yes ∧ s.shares_no ≤ s2.shares_no ∧
  s2.cost_yes = s.cost_yes + ((s2.shares_yes - s.shares_yes : ℕ) : ℚ) * fillPrice cfg yp ∧
  s2.cost_no = s.cost_no + ((s2.shares_no - s.shares_no : ℕ) : ℚ) * fillPrice cfg np

/-- Book-keeping invariant of the DCA stage: the used-level sets hold
pairwise-distinct configured levels, and `dca_count` counts exactly the
fills, one per used level. -/
def DcaInv (cfg : Config) (s : SimState) : Prop :=
  s.dca_used_yes.Nodup ∧ s.dca_used_no.Nodup ∧
  (∀ l ∈ s.dca_used_yes, l ∈ cfg.dca_levels) ∧
  (∀ l ∈ s.dca_used_no, l ∈ cfg.dca_levels) ∧
  s.dca_count = s.dca_used_yes.length + s.dca_used_no.length

/-- The source's default configuration. -/
def cfgW : Config := {}

/-- Outcome labels identifying both legs. -/
def goodOuts : List (List Char) := [['Y', 'e', 's'], ['N', 'o']]

/-- Outcome labels of a market whose Yes/No legs cannot be identified. -/
def badOuts : List (List Char) := [['U', 'p'], ['D', 'o', 'w', 'n']]

/-- The end-to-end example series of the spec, with market epoch 0: entry at
yes=0.34, one DCA fill at yes=0.24 two minutes later, three quiet rows, and
a final row at +12 minutes (3 minutes left) with no=0.60, yes=0.42. -/
def rowsC2 : List Row :=
  [⟨0, 17/50, 7/10⟩, ⟨120, 6/25, 19/25⟩, ⟨240, 3/10, 18/25⟩,
   ⟨360, 3/10, 18/25⟩, ⟨480, 3/10, 18/25⟩, ⟨720, 21/50, 3/5⟩]

/-- A one-row series that enters YES and then exhausts with an unprofitable
completion (no=0.80 at the last row). -/
def rowsC3 : List Row := [⟨0, 3/10, 4/5⟩]

/-- A series whose both prices stay strictly above the default threshold. -/
def rowsC8 : List Row := [⟨0, 1/2, 1/2⟩]

/-- The state after the entry fill of `rowsC3`: 100 YES shares bought at
fill price 0.3003. -/
def sEnt : SimState :=
  { initState with
      shares_yes := 100
      cost_yes := 3003/100
      entry_side := some Side.yes
      entry_time := some 0
      entered := true }

/-- A NO-entry counterpart of `sEnt`: 100 NO shares bought at fill price
0.3003. -/
def sEntNo : SimState :=
  { initState with
      shares_no := 100
      cost_no := 3003/100
      entry_side := some Side.no
      entry_time := some 0
      entered := true }

/-! ### Field-preservation lemmas for the stage functions -/

theorem foldl_pres {α β : Type} (g : SimState → β) (f : SimState → α → SimState)
    (h : ∀ s a, g (f s a) = g s) (L : List α) (s : SimState) :
    g (L.foldl f s) = g s := by
  induction L generalizing s with
  | nil => rfl
  | cons a t ih => rw [List.foldl_cons, ih, h]

@[simp] theorem recordExposure_shares_yes (s : SimState) (r : Row) :
    (recordExposure s r).shares_yes = s.shares_yes := rfl

@[simp] theorem recordExposure_shares_no (s : SimState) (r : Row) :
    (recordExposure s r).shares_no = s.shares_no := rfl

@[simp] theorem recordExposure_cost_yes (s : SimState) (r : Row) :
    (recordExposure s r).cost_yes = s.cost_yes := rfl

@[simp] theorem recordExposure_cost_no (s : SimState) (r : Row) :
    (recordExposure s r).cost_no = s.cost_no := rfl

@[simp] theorem recordExposure_entered (s : SimState) (r : Row) :
    (recordExposure s r).entered = s.entered := rfl

@[simp] theorem recordExposure_entry_side (s : SimState) (r : Row) :
    (recordExposure s r).entry_side = s.entry_side := rfl

@[simp] theorem recordExposure_entry_time (s : SimState) (r : Row) :
    (recordExposure s r).entry_time = s.entry_time := rfl

@[simp] theorem recordExposure_unwinded (s : SimState) (r : Row) :
    (recordExposure s r).unwinded = s.unwinded := rfl

@[simp] theorem recordExposure_forced (s : SimState) (r : Row) :
    (recordExposure s r).forced = s.forced := rfl

@[simp] theorem recordExposure_hedged (s : SimState) (r : Row) :
    (recordExposure s r).hedged = s.hedged := rfl

@[simp] theorem recordExposure_dca_count (s : SimState) (r : Row) :
    (recordExposure s r).dca_count = s.dca_count := rfl

@[simp] theorem recordExposure_dca_used_yes (s : SimState) (r : Row) :
    (recordExposure s r).dca_used_yes = s.dca_used_yes := rfl

@[simp] theorem recordExposure_dca_used_no (s : SimState) (r : Row) :
    (recordExposure s r).dca_used_no = s.dca_used_no := rfl

@[simp] theorem recordExposure_mge (s : SimState) (r : Row) :
    (recordExposure s r).max_gross_exposure
      = max s.max_gross_exposure (grossOf s r) := rfl

@[simp] theorem tryEnter_unwinded (cfg : Config) (s : SimState) (r : Row) :
    (tryEnter cfg s r).unwinded = s.unwinded := by
  unfold tryEnter; split_ifs <;> rfl

@[simp] theorem tryEnter_forced (cfg : Config) (s : SimState) (r : Row) :
    (tryEnter cfg s r).forced = s.forced := by
  unfold tryEnter; split_ifs <;> rfl

@[simp] theorem tryEnter_hedged (cfg : Config) (s : SimState) (r : Row) :
    (tryEnter cfg s r).hedged = s.hedged := by
  unfold tryEnter; split_ifs <;> rfl

@[simp] theorem tryEnter_dca_count (cfg : Config) (s : SimState) (r : Row) :
    (tryEnter cfg s r).dca_count = s.dca_count := by
  unfold tryEnter; split_ifs <;> rfl

@[simp] theorem tryEnter_dca_used_yes (cfg : Config) (s : SimState) (r : Row) :
    (tryEnter cfg s r).dca_used_yes = s.dca_used_yes := by
  unfold tryEnter; split_ifs <;> rfl

@[simp] theorem tryEnter_dca_used_no (cfg : Config) (s : SimState) (r : Row) :
    (tryEnter cfg s r).dca_used_no = s.dca_used_no := by
  unfold tryEnter; split_ifs <;> rfl

@[simp] theorem tryEnter_mge (cfg : Config) (s : SimState) (r : Row) :
    (tryEnter cfg s r).max_gross_exposure = s.max_gross_exposure := by
  unfold tryEnter; split_ifs <;> rfl

@[simp] theorem dcaFillYes_shares_no (cfg : Config) (yp : ℚ) (s : SimState) (lvl : ℚ) :
    (dcaFillYes cfg yp s lvl).shares_no = s.shares_no := by
  unfold dcaFillYes; split <;> rfl

@[simp] theorem dcaFillYes_cost_no (cfg : Config) (yp : ℚ) (s : SimState) (lvl : ℚ) :
    (dcaFillYes cfg yp s lvl).cost_no = s.cost_no := by
  unfold dcaFillYes; split <;> rfl

@[simp] theorem dcaFillYes_dca_used_no (cfg : Config) (yp : ℚ) (s : SimState) (lvl : ℚ) :
    (dcaFillYes cfg yp s lvl).dca_used_no = s.dca_used_no := by
  unfold dcaFillYes; split <;> rfl

@[simp] theorem dcaFillYes_entered (cfg : Config) (yp : ℚ) (s : SimState) (lvl : ℚ) :
    (dcaFillYes cfg yp s lvl).entered = s.entered := by
  unfold dcaFillYes; split <;> rfl

@[simp] theorem dcaFillYes_entry_side (cfg : Config) (yp : ℚ) (s : SimState) (lvl : ℚ) :
    (dcaFillYes cfg yp s lvl).entry_side = s.entry_side := by
  unfold dcaFillYes; split <;> rfl

@[simp] theorem dcaFillYes_entry_time (cfg : Config) (yp : ℚ) (s : SimState) (lvl : ℚ) :
    (dcaFillYes cfg yp s lvl).entry_time = s.entry_time := by
  unfold dcaFillYes; split <;> rfl

@[simp] theorem dcaFillYes_unwinded (cfg : Config) (yp : ℚ) (s : SimState) (lvl : ℚ) :
    (dcaFillYes cfg yp s lvl).unwinded = s.unwinded := by
  unfold dcaFillYes; split <;> rfl

@[simp] theorem dcaFillYes_forced (cfg : Config) (yp : ℚ) (s : SimState) (lvl : ℚ) :
    (dcaFillYes cfg yp s lvl).forced = s.forced := by
  unfold dcaFillYes; split <;> rfl

@[simp] theorem dcaFillYes_hedged (cfg : Config) (yp : ℚ) (s : SimState) (lvl : ℚ) :
    (dcaFillYes cfg yp s lvl).hedged = s.hedged := by
  unfold dcaFillYes; split <;> rfl

@[simp] theorem dcaFillYes_mge (cfg : Config) (yp : ℚ) (s : SimState) (lvl : ℚ) :
    (dcaFillYes cfg yp s lvl).max_gross_exposure = s.max_gross_exposure := by
  unfold dcaFillYes; split <;> rfl

@[simp] theorem dcaFillNo_shares_yes (cfg : Config) (np : ℚ) (s : SimState) (lvl : ℚ) :
    (dcaFillNo cfg np s lvl).shares_yes = s.shares_yes := by
  unfold dcaFillNo; split <;> rfl

@[simp] theorem dcaFillNo_cost_yes (cfg : Config) (np : ℚ) (s : SimState) (lvl : ℚ) :
    (dcaFillNo cfg np s lvl).cost_yes = s.cost_yes := by
  unfold dcaFillNo; split <;> rfl

@[simp] theorem dcaFillNo_dca_used_yes (cfg : Config) (np : ℚ) (s : SimState) (lvl : ℚ) :
    (dcaFillNo cfg np s lvl).dca_used_yes = s.dca_used_yes := by
  unfold dcaFillNo; split <;> rfl

@[simp] theorem dcaFillNo_entered (cfg : Config) (np : ℚ) (s : SimState) (lvl : ℚ) :
    (dcaFillNo cfg np s lvl).entered = s.entered := by
  unfold dcaFillNo; split <;> rfl

@[simp] theorem dcaFillNo_entry_side (cfg : Config) (np : ℚ) (s : SimState) (lvl : ℚ) :
    (dcaFillNo cfg np s lvl).entry_side = s.entry_side := by
  unfold dcaFillNo; split <;> rfl

@[simp] theorem dcaFillNo_entry_time (cfg : Config) (np : ℚ) (s : SimState) (lvl : ℚ) :
    (dcaFillNo cfg np s lvl).entry_time = s.entry_time := by
  unfold dcaFillNo; split <;> rfl

@[simp] theorem dcaFillNo_unwinded (cfg : Config) (np : ℚ) (s : SimState) (lvl : ℚ) :
    (dcaFillNo cfg np s lvl).unwinded = s.unwinded := by
  unfold dcaFillNo; split <;> rfl

@[simp] theorem dcaFillNo_forced (cfg : Config) (np : ℚ) (s : SimState) (lvl : ℚ) :
    (dcaFillNo cfg np s lvl).forced = s.forced := by
  unfold dcaFillNo; split <;> rfl

@[simp] theorem dcaFillNo_hedged (cfg : Config) (np : ℚ) (s : SimState) (lvl : ℚ) :
    (dcaFillNo cfg np s lvl).hedged = s.hedged := by
  unfold dcaFillNo; split <;> rfl

@[simp] theorem dcaFillNo_mge (cfg : Config) (np : ℚ) (s : SimState) (lvl : ℚ) :
    (dcaFillNo cfg np s lvl).max_gross_exposure = s.max_gross_exposure := by
  unfold dcaFillNo; split <;> rfl

@[simp] theorem dcaStep_entered (cfg : Config) (s : SimState) (r : Row) (mse : ℚ) :
    (dcaStep cfg s r mse).entered = s.entered := by
  unfold dcaStep
  split
  · cases hs : s.entry_side with
    | none => rfl
    | some side =>
      cases side with
      | yes => exact foldl_pres _ _ (fun s a => by simp) cfg.dca_levels s
      | no => exact foldl_pres _ _ (fun s a => by simp) cfg.dca_levels s
  · rfl

@[simp] theorem dcaStep_entry_side (cfg : Config) (s : SimState) (r : Row) (mse : ℚ) :
    (dcaStep cfg s r mse).entry_side = s.entry_side := by
  unfold dcaStep
  split
  · cases hs : s.entry_side with
    | none => exact hs
    | some side =>
      cases side with
      | yes => exact (foldl_pres _ _ (fun s a => by simp) cfg.dca_levels s).trans hs
      | no => exact (foldl_pres _ _ (fun s a => by simp) cfg.dca_levels s).trans hs
  · rfl

@[simp] theorem dcaStep_entry_time (cfg : Config) (s : SimState) (r : Row) (mse : ℚ) :
    (dcaStep cfg s r mse).entry_time = s.entry_time := by
  unfold dcaStep
  split
  · cases hs : s.entry_side with
    | none => rfl
    | some side =>
      cases side with
      | yes => exact foldl_pres _ _ (fun s a => by simp) cfg.dca_levels s
      | no => exact foldl_pres _ _ (fun s a => by simp) cfg.dca_levels s
  · rfl

@[simp] theorem dcaStep_unwinded (cfg : Config) (s : SimState) (r : Row) (mse : ℚ) :
    (dcaStep cfg s r mse).unwinded = s.unwinded := by
  unfold dcaStep
  split
  · cases hs : s.entry_side with
    | none => rfl
    | some side =>
      cases side with
      | yes => exact foldl_pres _ _ (fun s a => by simp) cfg.dca_levels s
      | no => exact foldl_pres _ _ (fun s a => by simp) cfg.dca_levels s
  · rfl

@[simp] theorem dcaStep_forced (cfg : Config) (s : SimState) (r : Row) (mse : ℚ) :
    (dcaStep cfg s r mse).forced = s.forced := by
  unfold dcaStep
  split
  · cases hs : s.entry_side with
    | none => rfl
    | some side =>
      cases side with
      | yes => exact foldl_pres _ _ (fun s a => by simp) cfg.dca_levels s
      | no => exact foldl_pres _ _ (fun s a => by simp) cfg.dca_levels s
  · rfl

@[simp] theorem dcaStep_hedged (cfg : Config) (s : SimState) (r : Row) (mse : ℚ) :
    (dcaStep cfg s r mse).hedged = s.hedged := by
  unfold dcaStep
  split
  · cases hs : s.entry_side with
    | none => rfl
    | some side =>
      cases side with
      | yes => exact foldl_pres _ _ (fun s a => by simp) cfg.dca_levels s
      | no => exact foldl_pres _ _ (fun s a => by simp) cfg.dca_levels s
  · rfl

@[simp] theorem dcaStep_mge (cfg : Config) (s : SimState) (r : Row) (mse : ℚ) :
    (dcaStep cfg s r mse).max_gross_exposure = s.max_gross_exposure := by
  unfold dcaStep
  split
  · cases hs : s.entry_side with
    | none => rfl
    | some side =>
      cases side with
      | yes => exact foldl_pres _ _ (fun s a => by simp) cfg.dca_levels s
      | no => exact foldl_pres _ _ (fun s a => by simp) cfg.dca_levels s
  · rfl

@[simp] theorem hedgeStep_entered (cfg : Config) (s : SimState) (r : Row) :
    (hedgeStep cfg s r).entered = s.entered := by
  unfold hedgeStep; split_ifs <;> rfl

@[simp] theorem hedgeStep_entry_side (cfg : Config) (s : SimState) (r : Row) :
    (hedgeStep cfg s r).entry_side = s.entry_side := by
  unfold hedgeStep; split_ifs <;> rfl

@[simp] theorem hedgeStep_entry_time (cfg : Config) (s : SimState) (r : Row) :
    (hedgeStep cfg s r).entry_time = s.entry_time := by
  unfold hedgeStep; split_ifs <;> rfl

@[simp] theorem hedgeStep_unwinded (cfg : Config) (s : SimState) (r : Row) :
    (hedgeStep cfg s r).unwinded = s.unwinded := by
  unfold hedgeStep; split_ifs <;> rfl

@[simp] theorem hedgeStep_forced (cfg : Config) (s : SimState) (r : Row) :
    (hedgeStep cfg s r).forced = s.forced := by
  unfold hedgeStep; split_ifs <;> rfl

@[simp] theorem hedgeStep_dca_count (cfg : Config) (s : SimState) (r : Row) :
    (hedgeStep cfg s r).dca_count = s.dca_count := by
  unfold hedgeStep; split_ifs <;> rfl

@[simp] theorem hedgeStep_dca_used_yes (cfg : Config) (s : SimState) (r : Row) :
    (hedgeStep cfg s r).dca_used_yes = s.dca_used_yes := by
  unfold hedgeStep; split_ifs <;> rfl

@[simp] theorem hedgeStep_dca_used_no (cfg : Config) (s : SimState) (r : Row) :
    (hedgeStep cfg s r).dca_used_no = s.dca_used_no := by
  unfold hedgeStep; split_ifs <;> rfl

@[simp] theorem hedgeStep_mge (cfg : Config) (s : SimState) (r : Row) :
    (hedgeStep cfg s r).max_gross_exposure = s.max_gross_exposure := by
  unfold hedgeStep; split_ifs <;> rfl

@[simp] theorem execUnwind_entered (cfg : Config) (s : SimState) (r : Row) (a b : ℕ) :
    (execUnwind cfg s r a b).entered = s.entered := by
  simp only [execUnwind]; split_ifs <;> rfl

@[simp] theorem execUnwind_entry_side (cfg : Config) (s : SimState) (r : Row) (a b : ℕ) :
    (execUnwind cfg s r a b).entry_side = s.entry_side := by
  simp only [execUnwind]; split_ifs <;> rfl

@[simp] theorem execUnwind_entry_time (cfg : Config) (s : SimState) (r : Row) (a b : ℕ) :
    (execUnwind cfg s r a b).entry_time = s.entry_time := by
  simp only [execUnwind]; split_ifs <;> rfl

@[simp] theorem execUnwind_unwinded (cfg : Config) (s : SimState) (r : Row) (a b : ℕ) :
    (execUnwind cfg s r a b).unwinded = true := rfl

@[simp] theorem execUnwind_forced (cfg : Config) (s : SimState) (r : Row) (a b : ℕ) :
    (execUnwind cfg s r a b).forced = s.forced := by
  simp only [execUnwind]; split_ifs <;> rfl

@[simp] theorem execUnwind_hedged (cfg : Config) (s : SimState) (r : Row) (a b : ℕ) :
    (execUnwind cfg s r a b).hedged = s.hedged := by
  simp only [execUnwind]; split_ifs <;> rfl

@[simp] theorem execUnwind_dca_count (cfg : Config) (s : SimState) (r : Row) (a b : ℕ) :
    (execUnwind cfg s r a b).dca_count = s.dca_count := by
  simp only [execUnwind]; split_ifs <;> rfl

@[simp] theorem execUnwind_dca_used_yes (cfg : Config) (s : SimState) (r : Row) (a b : ℕ) :
    (execUnwind cfg s r a b).dca_used_yes = s.dca_used_yes := by
  simp only [execUnwind]; split_ifs <;> rfl

@[simp] theorem execUnwind_dca_used_no (cfg : Config) (s : SimState) (r : Row) (a b : ℕ) :
    (execUnwind cfg s r a b).dca_used_no = s.dca_used_no := by
  simp only [execUnwind]; split_ifs <;> rfl

@[simp] theorem execUnwind_mge (cfg : Config) (s : SimState) (r : Row) (a b : ℕ) :
    (execUnwind cfg s r a b).max_gross_exposure = s.max_gross_exposure := by
  simp only [execUnwind]; split_ifs <;> rfl

@[simp] theorem exitStep_entered (cfg : Config) (s : SimState) (r : Row) (ml : ℚ) :
    (exitStep cfg s r ml).entered = s.entered := by
  simp only [exitStep]; split_ifs <;> simp

@[simp] theorem exitStep_entry_side (cfg : Config) (s : SimState) (r : Row) (ml : ℚ) :
    (exitStep cfg s r ml).entry_side = s.entry_side := by
  simp only [exitStep]; split_ifs <;> simp

@[simp] theorem exitStep_entry_time (cfg : Config) (s : SimState) (r : Row) (ml : ℚ) :
    (exitStep cfg s r ml).entry_time = s.entry_time := by
  simp only [exitStep]; split_ifs <;> simp

@[simp] theorem exitStep_hedged (cfg : Config) (s : SimState) (r : Row) (ml : ℚ) :
    (exitStep cfg s r ml).hedged = s.hedged := by
  simp only [exitStep]; split_ifs <;> simp

@[simp] theorem exitStep_dca_count (cfg : Config) (s : SimState) (r : Row) (ml : ℚ) :
    (exitStep cfg s r ml).dca_count = s.dca_count := by
  simp only [exitStep]; split_ifs <;> simp

@[simp] theorem exitStep_dca_used_yes (cfg : Config) (s : SimState) (r : Row) (ml : ℚ) :
    (exitStep cfg s r ml).dca_used_yes = s.dca_used_yes := by
  simp only [exitStep]; split_ifs <;> simp

@[simp] theorem exitStep_dca_used_no (cfg : Config) (s : SimState) (r : Row) (ml : ℚ) :
    (exitStep cfg s r ml).dca_used_no = s.dca_used_no := by
  simp only [exitStep]; split_ifs <;> simp

@[simp] theorem exitStep_mge (cfg : Config) (s : SimState) (r : Row) (ml : ℚ) :
    (exitStep cfg s r ml).max_gross_exposure = s.max_gross_exposure := by
  simp only [exitStep]; split_ifs <;> simp

@[simp] theorem settle_hedged (cfg : Config) (rows : List Row) (s : SimState) :
    (settle cfg rows s).hedged = s.hedged := by
  unfold settle
  split
  · cases h : rows.getLast? with
    | none => rfl
    | some r =>
      dsimp only
      split_ifs <;> simp
  · rfl

@[simp] theorem settle_entered (cfg : Config) (rows : List Row) (s : SimState) :
    (settle cfg rows s).entered = s.entered := by
  unfold settle
  split
  · cases h : rows.getLast? with
    | none => rfl
    | some r =>
      dsimp only
      split_ifs <;> simp
  · rfl

@[simp] theorem settle_entry_side (cfg : Config) (rows : List Row) (s : SimState) :
    (settle cfg rows s).entry_side = s.entry_side := by
  unfold settle
  split
  · cases h : rows.getLast? with
    | none => rfl
    | some r =>
      dsimp only
      split_ifs <;> simp
  · rfl

@[simp] theorem settle_dca_count (cfg : Config) (rows : List Row) (s : SimState) :
    (settle cfg rows s).dca_count = s.dca_count := by
  unfold settle
  split
  · cases h : rows.getLast? with
    | none => rfl
    | some r =>
      dsimp only
      split_ifs <;> simp
  · rfl

@[simp] theorem settle_dca_used_yes (cfg : Config) (rows : List Row) (s : SimState) :
    (settle cfg rows s).dca_used_yes = s.dca_used_yes := by
  unfold settle
  split
  · cases h : rows.getLast? with
    | none => rfl
    | some r =>
      dsimp only
      split_ifs <;> simp
  · rfl

@[simp] theorem settle_dca_used_no (cfg : Config) (rows : List Row) (s : SimState) :
    (settle cfg rows s).dca_used_no = s.dca_used_no := by
  unfold settle
  split
  · cases h : rows.getLast? with
    | none => rfl
    | some r =>
      dsimp only
      split_ifs <;> simp
  · rfl

@[simp] theorem settle_mge (cfg : Config) (rows : List Row) (s : SimState) :
    (settle cfg rows s).max_gross_exposure = s.max_gross_exposure := by
  unfold settle
  split
  · cases h : rows.getLast? with
    | none => rfl
    | some r =>
      dsimp only
      split_ifs <;> simp
  · rfl

@[simp] theorem mkResult_entered (cfg : Config) (s : SimState) :
    (mkResult cfg s).entered = s.entered := rfl

@[simp] theorem mkResult_unwinded (cfg : Config) (s : SimState) :
    (mkResult cfg s).unwinded = s.unwinded := rfl

@[simp] theorem mkResult_forced (cfg : Config) (s : SimState) :
    (mkResult cfg s).forced = s.forced := rfl

@[simp] theorem mkResult_entry_side (cfg : Config) (s : SimState) :
    (mkResult cfg s).entry_side = s.entry_side := rfl

@[simp] theorem mkResult_shares_yes (cfg : Config) (s : SimState) :
    (mkResult cfg s).shares_yes = s.shares_yes := rfl

@[simp] theorem mkResult_shares_no (cfg : Config) (s : SimState) :
    (mkResult cfg s).shares_no = s.shares_no := rfl

@[simp] theorem mkResult_total_cost (cfg : Config) (s : SimState) :
    (mkResult cfg s).total_cost = s.cost_yes + s.cost_no := rfl

@[simp] theorem mkResult_locked_payout (cfg : Config) (s : SimState) :
    (mkResult cfg s).locked_payout
      = if s.unwinded then ((max s.shares_yes s.shares_no : ℕ) : ℚ) else 0 := rfl

@[simp] theorem mkResult_pnl (cfg : Config) (s : SimState) :
    (mkResult cfg s).pnl
      = (mkResult cfg s).locked_payout - (mkResult cfg s).total_cost
        - (mkResult cfg s).total_cost * feeMult cfg := rfl

@[simp] theorem mkResult_mge (cfg : Config) (s : SimState) :
    (mkResult cfg s).max_gross_exposure = s.max_gross_exposure := rfl

@[simp] theorem mkResult_hedged (cfg : Config) (s : SimState) :
    (mkResult cfg s).hedged = s.hedged := rfl

@[simp] theorem mkResult_dca_count (cfg : Config) (s : SimState) :
    (mkResult cfg s).dca_count = s.dca_count := rfl

theorem step_of_unwinded {s : SimState} (cfg : Config) (marketEnd : ℚ) (r : Row)
    (h : s.unwinded = true) : step cfg marketEnd s r = s := by
  unfold step; simp [h]

theorem foldl_step_of_unwinded {s : SimState} (cfg : Config) (marketEnd : ℚ)
    (rows : List Row) (h : s.unwinded = true) :
    rows.foldl (step cfg marketEnd) s = s := by
  induction rows with
  | nil => rfl
  | cons r rs ih => rw [List.foldl_cons, step_of_unwinded cfg marketEnd r h, ih]

theorem step_mge {s : SimState} (cfg : Config) (marketEnd : ℚ) (r : Row)
    (h : s.unwinded = false) :
    (step cfg marketEnd s r).max_gross_exposure
      = max s.max_gross_exposure (grossOf s r) := by
  unfold step
  simp only [h, Bool.false_eq_true, if_false]
  split_ifs <;> simp

theorem step_entered_of (cfg : Config) (marketEnd : ℚ) {s : SimState} (r : Row)
    (h : s.entered = true) : (step cfg marketEnd s r).entered = true := by
  unfold step
  split_ifs <;> simp_all

@[simp] theorem grossTrace_nil (cfg : Config) (marketEnd : ℚ) (s : SimState) :
    grossTrace cfg marketEnd s [] = [] := rfl

theorem grossTrace_cons (cfg : Config) (marketEnd : ℚ) (s : SimState) (r : Row)
    (rs : List Row) :
    grossTrace cfg marketEnd s (r :: rs)
      = if s.unwinded = true then []
        else grossOf s r :: grossTrace cfg marketEnd (step cfg marketEnd s r) rs := rfl

theorem mge_foldl (cfg : Config) (marketEnd : ℚ) (rows : List Row) :
    ∀ s : SimState,
      (rows.foldl (step cfg marketEnd) s).max_gross_exposure
        = (grossTrace cfg marketEnd s rows).foldl max s.max_gross_exposure := by
  induction rows with
  | nil => intro s; rfl
  | cons r rs ih =>
    intro s
    rw [List.foldl_cons, grossTrace_cons]
    by_cases h : s.unwinded = true
    · rw [if_pos h, step_of_unwinded cfg marketEnd r h,
        foldl_step_of_unwinded cfg marketEnd rs h]
      rfl
    · have hb : s.unwinded = false := by simpa using h
      rw [if_neg h, ih (step cfg marketEnd s r), List.foldl_cons,
        step_mge cfg marketEnd r hb]

/-! ### The execution-model relation `BuyRel` -/

theorem buyRel_refl (cfg : Config) (yp np : ℚ) (s : SimState) :
    BuyRel cfg yp np s s := by
  unfold BuyRel; simp

theorem buyRel_trans {cfg : Config} {yp np : ℚ} {s1 s2 s3 : SimState}
    (h : BuyRel cfg yp np s1 s2) (h2 : BuyRel cfg yp np s2 s3) :
    BuyRel cfg yp np s1 s3 := by
  obtain ⟨m1, m2, c1, c2⟩ := h
  obtain ⟨n1, n2, d1, d2⟩ := h2
  refine ⟨le_trans m1 n1, le_trans m2 n2, ?_, ?_⟩
  · have e : (s3.shares_yes - s2.shares_yes) + (s2.shares_yes - s1.shares_yes)
        = s3.shares_yes - s1.shares_yes := by omega
    calc s3.cost_yes
        = s1.cost_yes + (((s3.shares_yes - s2.shares_yes : ℕ) : ℚ)
            + ((s2.shares_yes - s1.shares_yes : ℕ) : ℚ)) * fillPrice cfg yp := by
          rw [d1, c1]; ring
      _ = s1.cost_yes + ((s3.shares_yes - s1.shares_yes : ℕ) : ℚ) * fillPrice cfg yp := by
          rw [← Nat.cast_add, e]
  · have e : (s3.shares_no - s2.shares_no) + (s2.shares_no - s1.shares_no)
        = s3.shares_no - s1.shares_no := by omega
    calc s3.cost_no
        = s1.cost_no + (((s3.shares_no - s2.shares_no : ℕ) : ℚ)
            + ((s2.shares_no - s1.shares_no : ℕ) : ℚ)) * fillPrice cfg np := by
          rw [d2, c2]; ring
      _ = s1.cost_no + ((s3.shares_no - s1.shares_no : ℕ) : ℚ) * fillPrice cfg np := by
          rw [← Nat.cast_add, e]

theorem buyRel_recordExposure (cfg : Config) (s : SimState) (r : Row) :
    BuyRel cfg r.yes r.no s (recordExposure s r) := by
  unfold BuyRel; simp

theorem buyRel_tryEnter (cfg : Config) (s : SimState) (r : Row) :
    BuyRel cfg r.yes r.no s (tryEnter cfg s r) := by
  unfold BuyRel tryEnter
  split_ifs <;> simp [Nat.add_sub_cancel_left, Nat.le_add_right]

theorem buyRel_dcaFillYes (cfg : Config) (s : SimState) (r : Row) (lvl : ℚ) :
    BuyRel cfg r.yes r.no s (dcaFillYes cfg r.yes s lvl) := by
  unfold BuyRel dcaFillYes
  split <;> simp [Nat.add_sub_cancel_left, Nat.le_add_right]

theorem buyRel_dcaFillNo (cfg : Config) (s : SimState) (r : Row) (lvl : ℚ) :
    BuyRel cfg r.yes r.no s (dcaFillNo cfg r.no s lvl) := by
  unfold BuyRel dcaFillNo
  split <;> simp [Nat.add_sub_cancel_left, Nat.le_add_right]

theorem buyRel_foldYes (cfg : Config) (r : Row) (L : List ℚ) :
    ∀ s : SimState, BuyRel cfg r.yes r.no s (L.foldl (dcaFillYes cfg r.yes) s) := by
  induction L with
  | nil => intro s; exact buyRel_refl cfg r.yes r.no s
  | cons a t ih =>
    intro s
    rw [List.foldl_cons]
    exact buyRel_trans (buyRel_dcaFillYes cfg s r a) (ih (dcaFillYes cfg r.yes s a))

theorem buyRel_foldNo (cfg : Config) (r : Row) (L : List ℚ) :
    ∀ s : SimState, BuyRel cfg r.yes r.no s (L.foldl (dcaFillNo cfg r.no) s) := by
  induction L with
  | nil => intro s; exact buyRel_refl cfg r.yes r.no s
  | cons a t ih =>
    intro s
    rw [List.foldl_cons]
    exact buyRel_trans (buyRel_dcaFillNo cfg s r a) (ih (dcaFillNo cfg r.no s a))

theorem buyRel_dcaStep (cfg : Config) (s : SimState) (r : Row) (mse : ℚ) :
    BuyRel cfg r.yes r.no s (dcaStep cfg s r mse) := by
  unfold dcaStep
  split
  · cases hs : s.entry_side with
    | none => exact buyRel_refl cfg r.yes r.no s
    | some side =>
      cases side with
      | yes => exact buyRel_foldYes cfg r cfg.dca_levels s
      | no => exact buyRel_foldNo cfg r cfg.dca_levels s
  · exact buyRel_refl cfg r.yes r.no s

theorem buyRel_hedgeStep (cfg : Config) (s : SimState) (r : Row) :
    BuyRel cfg r.yes r.no s (hedgeStep cfg s r) := by
  unfold BuyRel hedgeStep
  split_ifs <;> simp [Nat.add_sub_cancel_left, Nat.le_add_right]

theorem buyRel_execUnwind (cfg : Config) (s : SimState) (r : Row) (a b : ℕ) :
    BuyRel cfg r.yes r.no s (execUnwind cfg s r a b) := by
  unfold BuyRel execUnwind
  split_ifs <;> simp [Nat.add_sub_cancel_left, Nat.le_add_right]

theorem buyRel_exitStep (cfg : Config) (s : SimState) (r : Row) (ml : ℚ) :
    BuyRel cfg r.yes r.no s (exitStep cfg s r ml) := by
  unfold exitStep
  dsimp only
  split_ifs
  · exact buyRel_execUnwind cfg s r _ _
  · exact buyRel_refl cfg r.yes r.no s
  · have h := buyRel_execUnwind cfg s r (calcProfitIfUnwind cfg s r).add_yes
      (calcProfitIfUnwind cfg s r).add_no
    unfold BuyRel at h ⊢
    simpa using h
  · exact buyRel_refl cfg r.yes r.no s

theorem buyRel_step (cfg : Config) (marketEnd : ℚ) (s : SimState) (r : Row) :
    BuyRel cfg r.yes r.no s (step cfg marketEnd s r) := by
  unfold step
  dsimp only
  split_ifs with h1 h2
  · exact buyRel_refl cfg r.yes r.no s
  · exact buyRel_trans (buyRel_recordExposure cfg s r)
      (buyRel_trans (buyRel_dcaStep cfg _ r _)
        (buyRel_trans (buyRel_hedgeStep cfg _ r) (buyRel_exitStep cfg _ r _)))
  · exact buyRel_trans (buyRel_recordExposure cfg s r) (buyRel_tryEnter cfg _ r)

theorem buyRel_settle (cfg : Config) (rows : List Row) (s : SimState) (r : Row)
    (hlast : rows.getLast? = some r) :
    BuyRel cfg r.yes r.no s (settle cfg rows s) := by
  unfold settle
  split
  · rw [hlast]
    dsimp only
    split_ifs
    · have h := buyRel_execUnwind cfg s r (calcProfitIfUnwind cfg s r).add_yes
        (calcProfitIfUnwind cfg s r).add_no
      unfold BuyRel at h ⊢
      simpa using h
    · unfold BuyRel; simp
  · exact buyRel_refl cfg r.yes r.no s

/-! ### Hedge-stage lemmas -/

theorem hedgeStep_of_hedged {s : SimState} (cfg : Config) (r : Row)
    (h : s.hedged = true) : hedgeStep cfg s r = s := by
  unfold hedgeStep; simp [h]

theorem hedgeStep_of_not_gate {s : SimState} (cfg : Config) (r : Row)
    (hg : ¬ gateHolds cfg s r) : hedgeStep cfg s r = s := by
  have hg2 : ¬((s.entry_side = some Side.yes ∧ s.shares_no = 0
        ∧ avgCostYes s + fillPrice cfg r.no < 1)
      ∨ (s.entry_side = some Side.no ∧ s.shares_yes = 0
        ∧ avgCostNo s + fillPrice cfg r.yes < 1)) := by
    unfold gateHolds at hg; exact hg
  obtain ⟨hgy, hgn⟩ := not_or.mp hg2
  unfold hedgeStep
  split_ifs with h1 h2 h3 h4 h5 <;> try rfl
  · exact absurd ⟨h2.1, h2.2, h3⟩ hgy
  · exact absurd ⟨h4.1, h4.2, h5⟩ hgn

theorem hedgeStep_changes {s : SimState} (cfg : Config) (r : Row)
    (h : hedgeStep cfg s r ≠ s) : s.hedged = false ∧ gateHolds cfg s r := by
  constructor
  · by_contra hb
    have hh : s.hedged = true := by revert hb; cases s.hedged <;> simp
    exact h (hedgeStep_of_hedged cfg r hh)
  · by_contra hg
    exact h (hedgeStep_of_not_gate cfg r hg)

theorem hedgeStep_fire_yes {s : SimState} (cfg : Config) (r : Row)
    (hh : s.hedged = false) (hside : s.entry_side = some Side.yes)
    (hz : s.shares_no = 0) (hg : avgCostYes s + fillPrice cfg r.no < 1) :
    (hedgeStep cfg s r).shares_no = s.shares_yes ∧
    (hedgeStep cfg s r).cost_no = s.cost_no + (s.shares_yes : ℚ) * fillPrice cfg r.no ∧
    (hedgeStep cfg s r).hedged = true ∧
    (hedgeStep cfg s r).shares_yes = s.shares_yes ∧
    (hedgeStep cfg s r).cost_yes = s.cost_yes := by
  unfold hedgeStep
  simp [hh, hside, hz, hg]

theorem hedgeStep_fire_no {s : SimState} (cfg : Config) (r : Row)
    (hh : s.hedged = false) (hside : s.entry_side = some Side.no)
    (hz : s.shares_yes = 0) (hg : avgCostNo s + fillPrice cfg r.yes < 1) :
    (hedgeStep cfg s r).shares_yes = s.shares_no ∧
    (hedgeStep cfg s r).cost_yes = s.cost_yes + (s.shares_no : ℚ) * fillPrice cfg r.yes ∧
    (hedgeStep cfg s r).hedged = true ∧
    (hedgeStep cfg s r).shares_no = s.shares_no ∧
    (hedgeStep cfg s r).cost_no = s.cost_no := by
  unfold hedgeStep
  simp [hh, hside, hz, hg]

theorem step_hedged_false (cfg : Config) (marketEnd : ℚ) (s : SimState) (r : Row)
    (hh : s.hedged = false)
    (hg : (match hedgeMoment cfg s r with
           | some s2 => decide (gateHolds cfg s2 r)
           | none => false) = false) :
    (step cfg marketEnd s r).hedged = false := by
  unfold step hedgeMoment at *
  by_cases hu : s.unwinded = true
  · rw [if_pos hu]; exact hh
  · rw [if_neg hu] at hg ⊢
    dsimp only at hg ⊢
    by_cases he : (recordExposure s r).entered = true
    · rw [if_pos he] at hg ⊢
      dsimp only at hg
      have hng : ¬ gateHolds cfg
          (dcaStep cfg (recordExposure s r) r (minutesSinceEntry (recordExposure s r) r)) r :=
        of_decide_eq_false hg
      rw [exitStep_hedged, hedgeStep_of_not_gate cfg r hng]
      simp [hh]
    · rw [if_neg he]
      simp [hh]

theorem hedged_foldl_of_no_gate (cfg : Config) (marketEnd : ℚ) :
    ∀ (rows : List Row) (s : SimState),
      gateEverFires cfg marketEnd s rows = false → s.hedged = false →
      (rows.foldl (step cfg marketEnd) s).hedged = false := by
  intro rows
  induction rows with
  | nil => intro s _ hh; exact hh
  | cons r rs ih =>
    intro s hg hh
    rw [show gateEverFires cfg marketEnd s (r :: rs)
        = ((match hedgeMoment cfg s r with
            | some s2 => decide (gateHolds cfg s2 r)
            | none => false) || gateEverFires cfg marketEnd (step cfg marketEnd s r) rs)
        from rfl, Bool.or_eq_false_iff] at hg
    rw [List.foldl_cons]
    exact ih (step cfg marketEnd s r) hg.2
      (step_hedged_false cfg marketEnd s r hh hg.1)

/-! ### DCA-stage lemmas -/

theorem dcaStep_of_cutoff {s : SimState} {mse : ℚ} (cfg : Config) (r : Row)
    (h : cfg.dca_time_cutoff_minutes < mse) : dcaStep cfg s r mse = s := by
  unfold dcaStep; rw [if_neg (not_le.mpr h)]

theorem dcaStep_of_none {s : SimState} {mse : ℚ} (cfg : Config) (r : Row)
    (hs : s.entry_side = none) : dcaStep cfg s r mse = s := by
  unfold dcaStep
  rw [hs]
  split <;> rfl

theorem dcaStep_yes_no_side {s : SimState} {mse : ℚ} (cfg : Config) (r : Row)
    (hs : s.entry_side = some Side.yes) :
    (dcaStep cfg s r mse).shares_no = s.shares_no ∧
    (dcaStep cfg s r mse).cost_no = s.cost_no ∧
    (dcaStep cfg s r mse).dca_used_no = s.dca_used_no := by
  unfold dcaStep
  rw [hs]
  split
  · exact ⟨foldl_pres _ _ (fun s a => by simp) _ _,
      foldl_pres _ _ (fun s a => by simp) _ _,
      foldl_pres _ _ (fun s a => by simp) _ _⟩
  · exact ⟨rfl, rfl, rfl⟩

theorem dcaStep_no_yes_side {s : SimState} {mse : ℚ} (cfg : Config) (r : Row)
    (hs : s.entry_side = some Side.no) :
    (dcaStep cfg s r mse).shares_yes = s.shares_yes ∧
    (dcaStep cfg s r mse).cost_yes = s.cost_yes ∧
    (dcaStep cfg s r mse).dca_used_yes = s.dca_used_yes := by
  unfold dcaStep
  rw [hs]
  split
  · exact ⟨foldl_pres _ _ (fun s a => by simp) _ _,
      foldl_pres _ _ (fun s a => by simp) _ _,
      foldl_pres _ _ (fun s a => by simp) _ _⟩
  · exact ⟨rfl, rfl, rfl⟩

theorem dcaFillYes_changes {s : SimState} (cfg : Config) (yp lvl : ℚ)
    (h : dcaFillYes cfg yp s lvl ≠ s) :
    yp ≤ lvl ∧ lvl ∉ s.dca_used_yes := by
  by_contra hc
  exact h (by unfold dcaFillYes; rw [if_neg hc])

theorem dcaFillNo_changes {s : SimState} (cfg : Config) (np lvl : ℚ)
    (h : dcaFillNo cfg np s lvl ≠ s) :
    np ≤ lvl ∧ lvl ∉ s.dca_used_no := by
  by_contra hc
  exact h (by unfold dcaFillNo; rw [if_neg hc])

theorem dcaInv_dcaFillYes {s : SimState} (cfg : Config) (yp lvl : ℚ)
    (hmem : lvl ∈ cfg.dca_levels) (h : DcaInv cfg s) :
    DcaInv cfg (dcaFillYes cfg yp s lvl) := by
  obtain ⟨n1, n2, u1, u2, c⟩ := h
  unfold dcaFillYes
  split
  · rename_i hcond
    refine ⟨List.nodup_cons.mpr ⟨hcond.2, n1⟩, n2, ?_, u2, ?_⟩
    · intro l hl
      rcases List.mem_cons.mp hl with h | h
      · rw [h]; exact hmem
      · exact u1 l h
    · simp only [List.length_cons]
      omega
  · exact ⟨n1, n2, u1, u2, c⟩

theorem dcaInv_dcaFillNo {s : SimState} (cfg : Config) (np lvl : ℚ)
    (hmem : lvl ∈ cfg.dca_levels) (h : DcaInv cfg s) :
    DcaInv cfg (dcaFillNo cfg np s lvl) := by
  obtain ⟨n1, n2, u1, u2, c⟩ := h
  unfold dcaFillNo
  split
  · rename_i hcond
    refine ⟨n1, List.nodup_cons.mpr ⟨hcond.2, n2⟩, u1, ?_, ?_⟩
    · intro l hl
      rcases List.mem_cons.mp hl with h | h
      · rw [h]; exact hmem
      · exact u2 l h
    · simp only [List.length_cons]
      omega
  · exact ⟨n1, n2, u1, u2, c⟩

theorem dcaInv_foldYes (cfg : Config) (yp : ℚ) :
    ∀ (L : List ℚ), (∀ l ∈ L, l ∈ cfg.dca_levels) →
      ∀ s : SimState, DcaInv cfg s → DcaInv cfg (L.foldl (dcaFillYes cfg yp) s) := by
  intro L
  induction L with
  | nil => intro _ s h; exact h
  | cons a t ih =>
    intro hsub s h
    rw [List.foldl_cons]
    exact ih (fun l hl => hsub l (List.mem_cons_of_mem a hl)) _
      (dcaInv_dcaFillYes cfg yp a (hsub a (List.mem_cons_self a t)) h)

theorem dcaInv_foldNo (cfg : Config) (np : ℚ) :
    ∀ (L : List ℚ), (∀ l ∈ L, l ∈ cfg.dca_levels) →
      ∀ s : SimState, DcaInv cfg s → DcaInv cfg (L.foldl (dcaFillNo cfg np) s) := by
  intro L
  induction L with
  | nil => intro _ s h; exact h
  | cons a t ih =>
    intro hsub s h
    rw [List.foldl_cons]
    exact ih (fun l hl => hsub l (List.mem_cons_of_mem a hl)) _
      (dcaInv_dcaFillNo cfg np a (hsub a (List.mem_cons_self a t)) h)

theorem dcaInv_dcaStep {s : SimState} {mse : ℚ} (cfg : Config) (r : Row)
    (h : DcaInv cfg s) : DcaInv cfg (dcaStep cfg s r mse) := by
  unfold dcaStep
  split
  · cases hs : s.entry_side with
    | none => exact h
    | some side =>
      cases side with
      | yes => exact dcaInv_foldYes cfg r.yes cfg.dca_levels (fun l hl => hl) s h
      | no => exact dcaInv_foldNo cfg r.no cfg.dca_levels (fun l hl => hl) s h
  · exact h

theorem dcaInv_step {s : SimState} (cfg : Config) (marketEnd : ℚ) (r : Row)
    (h : DcaInv cfg s) : DcaInv cfg (step cfg marketEnd s r) := by
  unfold step
  dsimp only
  split_ifs with h1 h2
  · exact h
  · have h3 : DcaInv cfg (recordExposure s r) := by
      unfold DcaInv at h ⊢; simpa using h
    have h4 := @dcaInv_dcaStep (recordExposure s r)
      (minutesSinceEntry (recordExposure s r) r) cfg r h3
    unfold DcaInv at h4 ⊢
    simpa using h4
  · unfold DcaInv at h ⊢
    simpa using h

theorem dcaInv_initState (cfg : Config) : DcaInv cfg initState := by
  unfold DcaInv initState
  simp

theorem dcaInv_runState (cfg : Config) (marketEnd : ℚ) (rows : List Row) :
    DcaInv cfg (runState cfg marketEnd rows) := by
  unfold runState
  have main : ∀ (L : List Row) (s : SimState), DcaInv cfg s →
      DcaInv cfg (L.foldl (step cfg marketEnd) s) := by
    intro L
    induction L with
    | nil => intro s h; exact h
    | cons r rs ih =>
      intro s h
      rw [List.foldl_cons]
      exact ih _ (dcaInv_step cfg marketEnd r h)
  exact main rows initState (dcaInv_initState cfg)

/-! ### Entered states hold shares -/

theorem step_shares_entered {s : SimState} (cfg : Config) (marketEnd : ℚ) (r : Row)
    (hsz : 0 < cfg.size_per_leg)
    (h : s.entered = true → 0 < s.shares_yes + s.shares_no) :
    (step cfg marketEnd s r).entered = true
      → 0 < (step cfg marketEnd s r).shares_yes + (step cfg marketEnd s r).shares_no := by
  intro he
  by_cases hent : s.entered = true
  · have hp := h hent
    have hb := buyRel_step cfg marketEnd s r
    have h1 := hb.1
    have h2 := hb.2.1
    omega
  · unfold step at he ⊢
    dsimp only at he ⊢
    by_cases hu : s.unwinded = true
    · rw [if_pos hu] at he; exact absurd he hent
    · rw [if_neg hu] at he ⊢
      by_cases hre : (recordExposure s r).entered = true
      · rw [recordExposure_entered] at hre; exact absurd hre hent
      · rw [if_neg hre] at he ⊢
        unfold tryEnter at he ⊢
        split_ifs at he ⊢ with hc1 hc2
        · simp only [recordExposure_shares_yes, recordExposure_shares_no]
          omega
        · simp only [recordExposure_shares_yes, recordExposure_shares_no]
          omega
        · rw [recordExposure_entered] at he; exact absurd he hent

theorem runState_shares_entered (cfg : Config) (marketEnd : ℚ) (rows : List Row)
    (hsz : 0 < cfg.size_per_leg) :
    (runState cfg marketEnd rows).entered = true
      → 0 < (runState cfg marketEnd rows).shares_yes
          + (runState cfg marketEnd rows).shares_no := by
  unfold runState
  have main : ∀ (L : List Row) (s : SimState),
      (s.entered = true → 0 < s.shares_yes + s.shares_no) →
      ((L.foldl (step cfg marketEnd) s).entered = true
        → 0 < (L.foldl (step cfg marketEnd) s).shares_yes
            + (L.foldl (step cfg marketEnd) s).shares_no) := by
    intro L
    induction L with
    | nil => intro s h; exact h
    | cons r rs ih =>
      intro s h
      rw [List.foldl_cons]
      exact ih _ (step_shares_entered cfg marketEnd r hsz h)
  exact main rows initState (by intro h; exact absurd h (by simp [initState]))

/-! ### Exit-stage regime lemmas -/

theorem exitStep_regime1 {s : SimState} {ml : ℚ} (cfg : Config) (r : Row)
    (h : cfg.force_unwind_minutes < ml) :
    exitStep cfg s r ml
      = if cfg.profit_buffer ≤ (calcProfitIfUnwind cfg s r).pnl
        then execUnwind cfg s r (calcProfitIfUnwind cfg s r).add_yes
          (calcProfitIfUnwind cfg s r).add_no
        else s := by
  unfold exitStep
  dsimp only
  rw [if_pos h]

theorem exitStep_regime2 {s : SimState} {ml : ℚ} (cfg : Config) (r : Row)
    (h : ¬ cfg.force_unwind_minutes < ml) :
    exitStep cfg s r ml
      = if 0 ≤ (calcProfitIfUnwind cfg s r).pnl
        then { execUnwind cfg s r (calcProfitIfUnwind cfg s r).add_yes
            (calcProfitIfUnwind cfg s r).add_no with forced := true }
        else s := by
  unfold exitStep
  dsimp only
  rw [if_neg h]

/-! ### No-entry helpers -/

theorem recordExposure_initState (r : Row) :
    recordExposure initState r = initState := by
  simp [recordExposure, grossOf, initState]

theorem step_init_of_above (cfg : Config) (marketEnd : ℚ) (r : Row)
    (hy : cfg.entry_threshold < r.yes) (hn : cfg.entry_threshold < r.no) :
    step cfg marketEnd initState r = initState := by
  unfold step
  dsimp only
  split_ifs with h1 h2
  · rfl
  · rw [recordExposure_entered] at h2
    exact absurd h2 (by simp [initState])
  · rw [recordExposure_initState r]
    unfold tryEnter
    rw [if_neg (not_or.mpr ⟨not_le.mpr hy, not_le.mpr hn⟩)]

theorem foldl_init_of_above (cfg : Config) (marketEnd : ℚ) (rows : List Row)
    (h : ∀ x ∈ rows, cfg.entry_threshold < x.yes ∧ cfg.entry_threshold < x.no) :
    rows.foldl (step cfg marketEnd) initState = initState := by
  induction rows with
  | nil => rfl
  | cons r rs ih =>
    rw [List.foldl_cons,
      step_init_of_above cfg marketEnd r (h r (List.mem_cons_self r rs)).1
        (h r (List.mem_cons_self r rs)).2]
    exact ih (fun x hx => h x (List.mem_cons_of_mem r hx))

theorem settle_initState (cfg : Config) (rows : List Row) :
    settle cfg rows initState = initState := by
  unfold settle
  rw [if_neg]
  simp [initState]

theorem mkResult_initState (cfg : Config) :
    mkResult cfg initState = zeroResult := by
  simp [mkResult, initState, zeroResult, avgCostYes, avgCostNo]

theorem step_hedged_of {s : SimState} (cfg : Config) (marketEnd : ℚ) (r : Row)
    (h : s.hedged = true) : (step cfg marketEnd s r).hedged = true := by
  unfold step
  dsimp only
  split_ifs with h1 h2
  · exact h
  · rw [exitStep_hedged]
    have h3 : (dcaStep cfg (recordExposure s r) r
        (minutesSinceEntry (recordExposure s r) r)).hedged = true := by simp [h]
    rw [hedgeStep_of_hedged cfg r h3]
    exact h3
  · simp [h]

/-! ### The claims -/

/-- C1: Two-regime exit.  For an entered, not-yet-unwound position evaluated
by the exit stage (after the entry/DCA/hedge stages of that timestep): with
`minutes_left > force_unwind_minutes` it unwinds exactly when the
hypothetical unwind pnl reaches `profit_buffer`, leaving `forced` untouched,
and in particular does nothing for pnl below the buffer; with
`minutes_left ≤ force_unwind_minutes` it unwinds exactly when the pnl is
non-negative, setting `forced`, and executes no buy at all when the pnl is
negative. -/
theorem claim_exit_two_regime (cfg : Config) (s : SimState) (r : Row) (ml : ℚ)
    (_hent : s.entered = true) (hunw : s.unwinded = false) :
    (cfg.force_unwind_minutes < ml →
        ((exitStep cfg s r ml).unwinded = true
          ↔ cfg.profit_buffer ≤ (calcProfitIfUnwind cfg s r).pnl)
        ∧ (exitStep cfg s r ml).forced = s.forced
        ∧ ((calcProfitIfUnwind cfg s r).pnl < cfg.profit_buffer
            → exitStep cfg s r ml = s))
  ∧ (ml ≤ cfg.force_unwind_minutes →
        ((exitStep cfg s r ml).unwinded = true
          ↔ 0 ≤ (calcProfitIfUnwind cfg s r).pnl)
        ∧ (0 ≤ (calcProfitIfUnwind cfg s r).pnl
            → (exitStep cfg s r ml).forced = true)
        ∧ ((calcProfitIfUnwind cfg s r).pnl < 0 → exitStep cfg s r ml = s)) := by
  constructor
  · intro hml
    rw [exitStep_regime1 cfg r hml]
    by_cases hp : cfg.profit_buffer ≤ (calcProfitIfUnwind cfg s r).pnl
    · rw [if_pos hp]
      exact ⟨iff_of_true (execUnwind_unwinded cfg s r _ _) hp,
        execUnwind_forced cfg s r _ _,
        fun hlt => absurd hp (not_le.mpr hlt)⟩
    · rw [if_neg hp]
      exact ⟨iff_of_false (by simp [hunw]) hp, rfl, fun _ => rfl⟩
  · intro hml
    rw [exitStep_regime2 cfg r (not_lt.mpr hml)]
    by_cases hp : 0 ≤ (calcProfitIfUnwind cfg s r).pnl
    · rw [if_pos hp]
      exact ⟨iff_of_true (by simp) hp, fun _ => rfl,
        fun hlt => absurd hp (not_le.mpr hlt)⟩
    · rw [if_neg hp]
      exact ⟨iff_of_false (by simp [hunw]) hp,
        fun hge => absurd hge hp, fun _ => rfl⟩

/-- Witness for C1: at the DCA row of the example series (13 minutes left,
hypothetical pnl −6.106 below the 0.01 buffer) the exit stage leaves the
state untouched. -/
theorem claim_exit_two_regime_witness :
    exitStep cfgW sEnt ⟨120, 6/25, 19/25⟩ 13 = sEnt :=
  ((claim_exit_two_regime cfgW sEnt ⟨120, 6/25, 19/25⟩ 13 rfl rfl).1
    (by decide)).2.2 (by decide)

/-- C9: Entry tie-break.  At a timestep where the entry condition holds and
`yes_price = no_price`, the not-yet-entered engine enters the YES side
(the comparison is `yes_p <= no_p`). -/
theorem claim_entry_tiebreak (cfg : Config) (marketEnd : ℚ) (s : SimState) (r : Row)
    (hunw : s.unwinded = false) (hent : s.entered = false)
    (hcond : r.yes ≤ cfg.entry_threshold ∨ r.no ≤ cfg.entry_threshold)
    (htie : r.yes = r.no) :
    (step cfg marketEnd s r).entered = true
  ∧ (step cfg marketEnd s r).entry_side = some Side.yes
  ∧ (step cfg marketEnd s r).shares_yes = s.shares_yes + cfg.size_per_leg
  ∧ (step cfg marketEnd s r).shares_no = s.shares_no := by
  unfold step
  dsimp only
  rw [if_neg (by simp [hunw]), if_neg (by simp [hent])]
  unfold tryEnter
  rw [if_pos hcond, if_pos (le_of_eq htie)]
  exact ⟨rfl, rfl, by simp, by simp⟩

/-- Witness for C9: a first row with yes = no = 0.30 enters YES. -/
theorem claim_entry_tiebreak_witness :
    (step cfgW 900 initState ⟨0, 3/10, 3/10⟩).entered = true
  ∧ (step cfgW 900 initState ⟨0, 3/10, 3/10⟩).entry_side = some Side.yes
  ∧ (step cfgW 900 initState ⟨0, 3/10, 3/10⟩).shares_yes
      = initState.shares_yes + cfgW.size_per_leg
  ∧ (step cfgW 900 initState ⟨0, 3/10, 3/10⟩).shares_no = initState.shares_no :=
  claim_entry_tiebreak cfgW 900 initState ⟨0, 3/10, 3/10⟩ rfl rfl
    (Or.inl (by decide)) rfl

/-- C7: Structural-failure handling.  Unidentifiable Yes/No legs, or an
empty joined series, yield the all-zero non-entered result (the embedding is
a total function, so no exception is possible on these paths). -/
theorem claim_structural_failure (outs : List (List Char)) (cfg : Config)
    (epoch : ℚ) (rows : List Row) :
    (legsIdentified outs = false → simulate_market outs cfg epoch rows = zeroResult)
  ∧ (rows = [] → simulate_market outs cfg epoch rows = zeroResult)
  ∧ zeroResult.entered = false ∧ zeroResult.shares_yes = 0
  ∧ zeroResult.shares_no = 0 ∧ zeroResult.total_cost = 0
  ∧ zeroResult.locked_payout = 0 ∧ zeroResult.pnl = 0 := by
  refine ⟨?_, ?_, rfl, rfl, rfl, rfl, rfl, rfl⟩
  · intro h
    unfold simulate_market
    rw [if_pos h]
  · intro h
    subst h
    unfold simulate_market
    split_ifs with h1 h2
    · rfl
    · rfl
    · exact absurd rfl h2

/-- Witness for C7: an Up/Down market with an empty series is rejected. -/
theorem claim_structural_failure_witness :
    simulate_market badOuts cfgW 0 [] = zeroResult :=
  (claim_structural_failure badOuts cfgW 0 []).1 (by decide)

/-- C8: No-entry invariant.  If both prices stay strictly above the entry
threshold at every timestep of a non-empty series, the loop never leaves the
initial state and the result is the all-zero non-entered record with
pnl = 0. -/
theorem claim_no_entry (outs : List (List Char)) (cfg : Config) (epoch : ℚ)
    (rows : List Row) (hleg : legsIdentified outs = true) (hne : rows ≠ [])
    (habove : ∀ x ∈ rows, cfg.entry_threshold < x.yes ∧ cfg.entry_threshold < x.no) :
    runState cfg (epoch + 15 * 60) rows = initState
  ∧ simulate_market outs cfg epoch rows = zeroResult
  ∧ zeroResult.entered = false ∧ zeroResult.pnl = 0 := by
  have hrun : runState cfg (epoch + 15 * 60) rows = initState :=
    foldl_init_of_above cfg (epoch + 15 * 60) rows habove
  refine ⟨hrun, ?_, rfl, rfl⟩
  unfold simulate_market
  rw [if_neg (by simp [hleg]), if_neg (by simpa using hne)]
  rw [hrun, settle_initState, mkResult_initState]

/-- Witness for C8: both prices at 0.50 above the default 0.35 threshold. -/
theorem claim_no_entry_witness :
    runState cfgW (0 + 15 * 60) rowsC8 = initState
  ∧ simulate_market goodOuts cfgW 0 rowsC8 = zeroResult
  ∧ zeroResult.entered = false ∧ zeroResult.pnl = 0 :=
  claim_no_entry goodOuts cfgW 0 rowsC8 (by decide) (by decide) (by decide)

/-- C4: Hedge profitability gate.  The hedge stage changes the state only
when not yet hedged and the gate holds (opposite leg empty and blended cost
below 1); when it fires — on a YES entry as on a NO entry — it buys exactly
the entry leg's share count on the opposite side and sets `hedged`; once
`hedged` it never fires again; and a run in which the gate never holds at
the moment of evaluation ends with `hedged = false`, also in the assembled
result. -/
theorem claim_hedge_gate (cfg : Config) (marketEnd : ℚ) (rows : List Row)
    (s : SimState) (r : Row) (outs : List (List Char)) (epoch : ℚ) :
    (hedgeStep cfg s r ≠ s → s.hedged = false ∧ gateHolds cfg s r)
  ∧ (s.hedged = false → s.entry_side = some Side.yes → s.shares_no = 0 →
      avgCostYes s + fillPrice cfg r.no < 1 →
      (hedgeStep cfg s r).shares_no = s.shares_yes
      ∧ (hedgeStep cfg s r).cost_no = s.cost_no + (s.shares_yes : ℚ) * fillPrice cfg r.no
      ∧ (hedgeStep cfg s r).hedged = true)
  ∧ (s.hedged = false → s.entry_side = some Side.no → s.shares_yes = 0 →
      avgCostNo s + fillPrice cfg r.yes < 1 →
      (hedgeStep cfg s r).shares_yes = s.shares_no
      ∧ (hedgeStep cfg s r).cost_yes = s.cost_yes + (s.shares_no : ℚ) * fillPrice cfg r.yes
      ∧ (hedgeStep cfg s r).hedged = true)
  ∧ (s.hedged = true → hedgeStep cfg s r = s ∧ (step cfg marketEnd s r).hedged = true)
  ∧ (gateEverFires cfg marketEnd initState rows = false
      → (runState cfg marketEnd rows).hedged = false)
  ∧ (gateEverFires cfg (epoch + 15 * 60) initState rows = false
      → (simulate_market outs cfg epoch rows).hedged = false) := by
  refine ⟨fun h => hedgeStep_changes cfg r h,
    fun hh hside hz hg => ⟨(hedgeStep_fire_yes cfg r hh hside hz hg).1,
      (hedgeStep_fire_yes cfg r hh hside hz hg).2.1,
      (hedgeStep_fire_yes cfg r hh hside hz hg).2.2.1⟩,
    fun hh hside hz hg => ⟨(hedgeStep_fire_no cfg r hh hside hz hg).1,
      (hedgeStep_fire_no cfg r hh hside hz hg).2.1,
      (hedgeStep_fire_no cfg r hh hside hz hg).2.2.1⟩,
    fun hh => ⟨hedgeStep_of_hedged cfg r hh, step_hedged_of cfg marketEnd r hh⟩,
    fun hg => hedged_foldl_of_no_gate cfg marketEnd rows initState hg rfl,
    fun hg => ?_⟩
  unfold simulate_market
  split_ifs with h1 h2
  · rfl
  · rfl
  · rw [mkResult_hedged, settle_hedged]
    exact hedged_foldl_of_no_gate cfg (epoch + 15 * 60) rows initState hg rfl

/-- Witness for C4: on `rowsC3` the gate never fires and the run ends
unhedged; at `sEnt` with the NO mid at 0.40 the gate holds and the hedge
buys 100 NO shares; at the NO-entry state `sEntNo` with the YES mid at 0.40
it buys 100 YES shares. -/
theorem claim_hedge_gate_witness :
    (runState cfgW 900 rowsC3).hedged = false
  ∧ (hedgeStep cfgW sEnt ⟨0, 3/10, 2/5⟩).shares_no = sEnt.shares_yes
  ∧ (hedgeStep cfgW sEnt ⟨0, 3/10, 2/5⟩).hedged = true
  ∧ (hedgeStep cfgW sEntNo ⟨0, 2/5, 7/10⟩).shares_yes = sEntNo.shares_no
  ∧ (hedgeStep cfgW sEntNo ⟨0, 2/5, 7/10⟩).hedged = true :=
  ⟨(claim_hedge_gate cfgW 900 rowsC3 sEnt ⟨0, 3/10, 2/5⟩ goodOuts 0).2.2.2.2.1
      (by decide),
   ((claim_hedge_gate cfgW 900 rowsC3 sEnt ⟨0, 3/10, 2/5⟩ goodOuts 0).2.1
      rfl rfl rfl (by decide)).1,
   ((claim_hedge_gate cfgW 900 rowsC3 sEnt ⟨0, 3/10, 2/5⟩ goodOuts 0).2.1
      rfl rfl rfl (by decide)).2.2,
   ((claim_hedge_gate cfgW 900 rowsC3 sEntNo ⟨0, 2/5, 7/10⟩ goodOuts 0).2.2.1
      rfl rfl rfl (by decide)).1,
   ((claim_hedge_gate cfgW 900 rowsC3 sEntNo ⟨0, 2/5, 7/10⟩ goodOuts 0).2.2.1
      rfl rfl rfl (by decide)).2.2⟩

/-- C5: DCA discipline.  The DCA stage is inert strictly after the time
cutoff, never touches the non-entry side, a level check fills only when the
price is at or below a level not yet used, and across any whole run the used
levels are distinct configured levels with `dca_count` equal to their number
— so each level contributes at most one fill per run. -/
theorem claim_dca_discipline (cfg : Config) (marketEnd : ℚ) (rows : List Row)
    (s : SimState) (r : Row) (mse : ℚ) :
    (cfg.dca_time_cutoff_minutes < mse → dcaStep cfg s r mse = s)
  ∧ (s.entry_side = some Side.yes →
      (dcaStep cfg s r mse).shares_no = s.shares_no
      ∧ (dcaStep cfg s r mse).cost_no = s.cost_no)
  ∧ (s.entry_side = some Side.no →
      (dcaStep cfg s r mse).shares_yes = s.shares_yes
      ∧ (dcaStep cfg s r mse).cost_yes = s.cost_yes)
  ∧ (s.entry_side = none → dcaStep cfg s r mse = s)
  ∧ (∀ lvl : ℚ, dcaFillYes cfg r.yes s lvl ≠ s → r.yes ≤ lvl ∧ lvl ∉ s.dca_used_yes)
  ∧ (∀ lvl : ℚ, dcaFillNo cfg r.no s lvl ≠ s → r.no ≤ lvl ∧ lvl ∉ s.dca_used_no)
  ∧ DcaInv cfg (runState cfg marketEnd rows) :=
  ⟨fun h => dcaStep_of_cutoff cfg r h,
   fun hs => ⟨(dcaStep_yes_no_side cfg r hs).1, (dcaStep_yes_no_side cfg r hs).2.1⟩,
   fun hs => ⟨(dcaStep_no_yes_side cfg r hs).1, (dcaStep_no_yes_side cfg r hs).2.1⟩,
   fun hs => dcaStep_of_none cfg r hs,
   fun lvl h => dcaFillYes_changes cfg r.yes lvl h,
   fun lvl h => dcaFillNo_changes cfg r.no lvl h,
   dcaInv_runState cfg marketEnd rows⟩

/-- Witness for C5: on the example series the stage is inert past the
cutoff, and the run's book-keeping invariant holds with one used level. -/
theorem claim_dca_discipline_witness :
    dcaStep cfgW sEnt ⟨720, 21/50, 3/5⟩ 12 = sEnt
  ∧ DcaInv cfgW (runState cfgW 900 rowsC2) :=
  ⟨(claim_dca_discipline cfgW 900 rowsC2 sEnt ⟨720, 21/50, 3/5⟩ 12).1 (by decide),
   (claim_dca_discipline cfgW 900 rowsC2 sEnt ⟨720, 21/50, 3/5⟩ 12).2.2.2.2.2.2⟩

/-- C6: Execution model.  Every buy of a timestep (entry, DCA, hedge,
unwind) and of the exhaustion settlement prices the acquired shares at
exactly `fill_price(mid) = clamp(mid*(1+slippage_bps/10000), 0.0001, 0.9999)`
of that moment's mid — shares only grow and cost grows by shares×fill —
while the fee is charged once, at result assembly, as
`fee_bps/10000 × total_cost`. -/
theorem claim_execution_model (cfg : Config) (marketEnd : ℚ) (s : SimState)
    (r : Row) (rows : List Row) (rl : Row) (hlast : rows.getLast? = some rl) :
    fillPrice cfg r.yes
      = min (max (r.yes * (1 + cfg.slippage_bps / 10000)) (1/10000)) (9999/10000)
  ∧ BuyRel cfg r.yes r.no s (step cfg marketEnd s r)
  ∧ BuyRel cfg rl.yes rl.no s (settle cfg rows s)
  ∧ (mkResult cfg s).pnl
      = (mkResult cfg s).locked_payout - (mkResult cfg s).total_cost
        - (mkResult cfg s).total_cost * (cfg.fee_bps / 10000)
  ∧ (mkResult cfg s).total_cost = s.cost_yes + s.cost_no :=
  ⟨rfl, buyRel_step cfg marketEnd s r, buyRel_settle cfg rows s rl hlast, rfl, rfl⟩

/-- Witness for C6: the cost delta of the forced-unwind timestep of the
example series obeys the fill-price pricing relation. -/
theorem claim_execution_model_witness :
    BuyRel cfgW (21/50) (3/5) sEnt (step cfgW 900 sEnt ⟨720, 21/50, 3/5⟩) :=
  (claim_execution_model cfgW 900 sEnt ⟨720, 21/50, 3/5⟩ rowsC2
    ⟨720, 21/50, 3/5⟩ rfl).2.1

/-- C10: Exposure high-water mark timing.  The reported
`max_gross_exposure` is the maximum, over the processed timesteps, of the
gross notional computed with the share counts held before that timestep's
trades; hence a run whose every row before the last stays above the entry
threshold — entering at the final row at the earliest — reports 0. -/
theorem claim_exposure_highwater (cfg : Config) (marketEnd : ℚ)
    (rows preRows : List Row) (r : Row) (outs : List (List Char)) (epoch : ℚ)
    (hleg : legsIdentified outs = true) (hne : rows ≠ [])
    (habove : ∀ x ∈ preRows, cfg.entry_threshold < x.yes ∧ cfg.entry_threshold < x.no) :
    (runState cfg marketEnd rows).max_gross_exposure
      = (grossTrace cfg marketEnd initState rows).foldl max 0
  ∧ (simulate_market outs cfg epoch rows).max_gross_exposure
      = (grossTrace cfg (epoch + 15 * 60) initState rows).foldl max 0
  ∧ (simulate_market outs cfg epoch (preRows ++ [r])).max_gross_exposure = 0
  ∧ (r.yes ≤ cfg.entry_threshold
      → (simulate_market outs cfg epoch (preRows ++ [r])).entered = true) := by
  have hrun : runState cfg (epoch + 15 * 60) (preRows ++ [r])
      = step cfg (epoch + 15 * 60) initState r := by
    unfold runState
    rw [List.foldl_append, foldl_init_of_above cfg (epoch + 15 * 60) preRows habove,
      List.foldl_cons, List.foldl_nil]
  refine ⟨mge_foldl cfg marketEnd rows initState, ?_, ?_, ?_⟩
  · unfold simulate_market
    rw [if_neg (by simp [hleg]), if_neg (by simpa using hne)]
    rw [mkResult_mge, settle_mge]
    exact mge_foldl cfg (epoch + 15 * 60) rows initState
  · unfold simulate_market
    rw [if_neg (by simp [hleg]), if_neg (by simp)]
    rw [mkResult_mge, settle_mge, hrun, step_mge cfg (epoch + 15 * 60) r rfl]
    simp [initState, grossOf]
  · intro hyr
    unfold simulate_market
    rw [if_neg (by simp [hleg]), if_neg (by simp)]
    rw [mkResult_entered, settle_entered, hrun]
    unfold step
    dsimp only
    rw [if_neg (by simp [initState]), if_neg (by simp [initState])]
    unfold tryEnter
    rw [if_pos (Or.inl hyr)]
    split_ifs <;> rfl

/-- Witness for C10: a series above threshold except for a final entering
row reports `max_gross_exposure = 0` while entering. -/
theorem claim_exposure_highwater_witness :
    (simulate_market goodOuts cfgW 0 (rowsC8 ++ [⟨60, 3/10, 7/10⟩])).max_gross_exposure = 0
  ∧ (simulate_market goodOuts cfgW 0 (rowsC8 ++ [⟨60, 3/10, 7/10⟩])).entered = true :=
  ⟨(claim_exposure_highwater cfgW 900 rowsC2 rowsC8 ⟨60, 3/10, 7/10⟩ goodOuts 0
      (by decide) (by decide) (by decide)).2.2.1,
   (claim_exposure_highwater cfgW 900 rowsC2 rowsC8 ⟨60, 3/10, 7/10⟩ goodOuts 0
      (by decide) (by decide) (by decide)).2.2.2 (by decide)⟩

/-- C3: Pessimistic expiry settlement.  A run that exhausts its series
entered and not yet unwound recomputes the hypothetical completion at the
last row: a non-negative pnl executes it (`unwound = forced = true`); a
negative pnl buys nothing, leaves `unwound = false` with `forced = true`,
`locked_payout = 0`, and `pnl = −total_cost × (1 + fee_rate)`.  Either way
`forced = true`. -/
theorem claim_expiry_settlement (cfg : Config) (marketEnd : ℚ) (rows : List Row)
    (r : Row) (hsz : 0 < cfg.size_per_leg)
    (hent : (runState cfg marketEnd rows).entered = true)
    (hunw : (runState cfg marketEnd rows).unwinded = false)
    (hlast : rows.getLast? = some r) :
    (0 ≤ (calcProfitIfUnwind cfg (runState cfg marketEnd rows) r).pnl →
        (mkResult cfg (settle cfg rows (runState cfg marketEnd rows))).unwinded = true
        ∧ (mkResult cfg (settle cfg rows (runState cfg marketEnd rows))).forced = true)
  ∧ ((calcProfitIfUnwind cfg (runState cfg marketEnd rows) r).pnl < 0 →
        (mkResult cfg (settle cfg rows (runState cfg marketEnd rows))).unwinded = false
        ∧ (mkResult cfg (settle cfg rows (runState cfg marketEnd rows))).forced = true
        ∧ (mkResult cfg (settle cfg rows (runState cfg marketEnd rows))).shares_yes
            = (runState cfg marketEnd rows).shares_yes
        ∧ (mkResult cfg (settle cfg rows (runState cfg marketEnd rows))).shares_no
            = (runState cfg marketEnd rows).shares_no
        ∧ (mkResult cfg (settle cfg rows (runState cfg marketEnd rows))).total_cost
            = (runState cfg marketEnd rows).cost_yes
              + (runState cfg marketEnd rows).cost_no
        ∧ (mkResult cfg (settle cfg rows (runState cfg marketEnd rows))).locked_payout = 0
        ∧ (mkResult cfg (settle cfg rows (runState cfg marketEnd rows))).pnl
            = -(mkResult cfg (settle cfg rows (runState cfg marketEnd rows))).total_cost
              * (1 + feeMult cfg))
  ∧ (mkResult cfg (settle cfg rows (runState cfg marketEnd rows))).forced = true := by
  have hpos := runState_shares_entered cfg marketEnd rows hsz hent
  have hguard : (0 < (runState cfg marketEnd rows).shares_yes
      ∨ 0 < (runState cfg marketEnd rows).shares_no)
      ∧ (runState cfg marketEnd rows).unwinded = false := ⟨by omega, hunw⟩
  have hsettle : settle cfg rows (runState cfg marketEnd rows)
      = if 0 ≤ (calcProfitIfUnwind cfg (runState cfg marketEnd rows) r).pnl
        then { execUnwind cfg (runState cfg marketEnd rows) r
            (calcProfitIfUnwind cfg (runState cfg marketEnd rows) r).add_yes
            (calcProfitIfUnwind cfg (runState cfg marketEnd rows) r).add_no
            with forced := true }
        else { runState cfg marketEnd rows with forced := true } := by
    unfold settle
    rw [if_pos hguard, hlast]
  refine ⟨?_, ?_, ?_⟩
  · intro hp
    rw [hsettle, if_pos hp]
    exact ⟨by simp, rfl⟩
  · intro hp
    rw [hsettle, if_neg (not_le.mpr hp)]
    refine ⟨by simp [hunw], rfl, by simp, by simp, by simp, ?_, ?_⟩
    · rw [mkResult_locked_payout]
      simp [hunw]
    · rw [mkResult_pnl, mkResult_locked_payout, mkResult_total_cost]
      have hx : ({ runState cfg marketEnd rows with forced := true } : SimState).unwinded
          = false := by simp [hunw]
      rw [hx]
      simp only [Bool.false_eq_true, if_false]
      unfold feeMult
      ring
  · by_cases hp : 0 ≤ (calcProfitIfUnwind cfg (runState cfg marketEnd rows) r).pnl
    · rw [hsettle, if_pos hp]; rfl
    · rw [hsettle, if_neg hp]; rfl

/-- Witness for C3: the one-row series enters YES, exhausts with an
unprofitable completion, and settles pessimistically. -/
theorem claim_expiry_settlement_witness :
    (mkResult cfgW (settle cfgW rowsC3 (runState cfgW 900 rowsC3))).unwinded = false
  ∧ (mkResult cfgW (settle cfgW rowsC3 (runState cfgW 900 rowsC3))).forced = true
  ∧ (mkResult cfgW (settle cfgW rowsC3 (runState cfgW 900 rowsC3))).locked_payout = 0 := by
  have h := (claim_expiry_settlement cfgW 900 rowsC3 ⟨0, 3/10, 4/5⟩ (by decide)
    (by decide) (by decide) rfl).2.1 (by decide)
  exact ⟨h.1, h.2.1, h.2.2.2.2.2.1⟩

/-- C2 counterexample: on a series realizing the spec's end-to-end example
(entry YES at 0.34 → fill 0.3403; DCA at 0.24 → fill 0.2402; 200 NO shares
bought at 0.6006 at the final row with 3 minutes left), the engine's
`total_cost` is exactly 178.178 and `pnl` is 21.822 — each more than 2 away
from the claimed ≈176.17 and ≈23.83; the claimed figures contradict the
claim's own cost formula 0.3403×100 + 0.2402×100 + 0.6006×200. -/
theorem claim_end_to_end_counterexample :
    (simulate_market goodOuts cfgW 0 rowsC2).total_cost = 89089/500
  ∧ (simulate_market goodOuts cfgW 0 rowsC2).pnl = 10911/500
  ∧ (17617/100 : ℚ) + 2 < (simulate_market goodOuts cfgW 0 rowsC2).total_cost
  ∧ (simulate_market goodOuts cfgW 0 rowsC2).pnl + 2 < 2383/100 := by
  refine ⟨?_, ?_, ?_, ?_⟩ <;> decide

/-- C2 amended: on the example series the engine enters YES at 0.3403,
takes one DCA fill at 0.2402, and at the final row (3 minutes left) the
dynamic hedge buys the 200 NO shares at 0.6006 (setting `hedged`), after
which the forced unwind completes with no further buys — ending with
total_cost = 178.178, locked_payout = 200, pnl = 21.822, forced and
unwound. -/
theorem claim_end_to_end_amended :
    (simulate_market goodOuts cfgW 0 rowsC2).entered = true
  ∧ (simulate_market goodOuts cfgW 0 rowsC2).entry_side = some Side.yes
  ∧ (simulate_market goodOuts cfgW 0 rowsC2).dca_count = 1
  ∧ (simulate_market goodOuts cfgW 0 rowsC2).shares_yes = 200
  ∧ (simulate_market goodOuts cfgW 0 rowsC2).shares_no = 200
  ∧ (simulate_market goodOuts cfgW 0 rowsC2).avg_cost_yes = 29029/100000
  ∧ (simulate_market goodOuts cfgW 0 rowsC2).avg_cost_no = 3003/5000
  ∧ (simulate_market goodOuts cfgW 0 rowsC2).total_cost = 89089/500
  ∧ (simulate_market goodOuts cfgW 0 rowsC2).locked_payout = 200
  ∧ (simulate_market goodOuts cfgW 0 rowsC2).pnl = 10911/500
  ∧ (simulate_market goodOuts cfgW 0 rowsC2).forced = true
  ∧ (simulate_market goodOuts cfgW 0 rowsC2).unwinded = true
  ∧ (simulate_market goodOuts cfgW 0 rowsC2).hedged = true := by
  refine ⟨?_, ?_, ?_, ?_, ?_, ?_, ?_, ?_, ?_, ?_, ?_, ?_, ?_⟩ <;> decide

end PolyQuant
